import Mathlib

/-!
Verification of the zap-shift parcel server core against its specification.

The development shallowly embeds the JavaScript source:
the Mongo collection is a `List Parcel`, a Mongo `_id` is a `BsonId`
(either a native ObjectId, kept as its 24-character hex string, or a plain
string), `deleteOne`/`find?` act on the list, and each HTTP handler becomes a
pure function from its inputs (store contents, connection environment, route
parameter) to a response value.  The `$regex` filter built by the listing
handlers is embedded by a small pattern matcher that is faithful to JavaScript
regex semantics for patterns built from literal characters and the `.`
metacharacter, which is all the development evaluates it on.
-/

namespace ZapShift

/-! ## String helpers (JavaScript `trim`, hex check, ObjectId validation) -/

/-- Characters removed by the JavaScript `String.prototype.trim` used at the
top of the delete handler; modelled by the core whitespace predicate. -/
def isWsChar (c : Char) : Bool := c.isWhitespace

/-- Drop whitespace from both ends of a character list. -/
def trimChars (l : List Char) : List Char :=
  ((l.dropWhile isWsChar).reverse.dropWhile isWsChar).reverse

/-- Model of `parcelId.trim()` from the delete handler. -/
def jsTrim (s : String) : String := String.mk (trimChars s.data)

/-- One hexadecimal digit, as accepted by the driver's ObjectId check
(regular expression `[0-9a-fA-F]`). -/
def isHexChar (c : Char) : Bool :=
  c.isDigit || ('a' ≤ c && c ≤ 'f') || ('A' ≤ c && c ≤ 'F')

namespace ObjectId

/-- Model of the driver's `ObjectId.isValid` on strings: exactly 24
hexadecimal characters. -/
def isValid (s : String) : Bool :=
  s.length == 24 && s.data.all isHexChar

end ObjectId

/-! ## Data model -/

/-- A stored `_id` value: either a native ObjectId (kept as its canonical
lowercase 24-hex spelling, as produced by `new ObjectId(hex)`) or a record
whose locator was persisted as a plain string. -/
inductive BsonId where
  | oid (hex : String)
  | str (s : String)
deriving DecidableEq, Repr

/-- Model of `_id.toString()`: the hex spelling of an ObjectId, or the
string itself. -/
def BsonId.asString : BsonId → String
  | .oid h => h
  | .str s => s

/-- A parcel document, restricted to the attributes the core reads: the
locator, the optional separate `id` scalar, the five email alias fields and
the three optional recency fields used by the sort. -/
structure Parcel where
  mid : BsonId
  idField : Option String
  email : Option String
  userEmail : Option String
  senderEmail : Option String
  recipientEmail : Option String
  creatorEmail : Option String
  createdAt : Option Int
  date : Option Int
  timestamp : Option Int
deriving DecidableEq, Repr

/-! ## Store primitives -/

/-- Model of Mongo `deleteOne`: remove the first document satisfying the
filter, returning the new store and the deleted count (0 or 1). -/
def deleteOne (p : Parcel → Bool) : List Parcel → List Parcel × Nat
  | [] => ([], 0)
  | r :: rs =>
    if p r then (rs, 1)
    else
      let out := deleteOne p rs
      (r :: out.1, out.2)

/-! ## Delete handler (`handleDeleteParcelById`) -/

/-- Lowercase a string character by character; this models the hex
normalisation performed by `new ObjectId(hexString)`. -/
def strLower (s : String) : String := String.mk (s.data.map Char.toLower)

/-- Strategy 1 of the delete chain: `{ _id: new ObjectId(parcelId) }`.
`new ObjectId` normalises the hex spelling to lowercase. -/
def strat1 (parcelId : String) (r : Parcel) : Bool :=
  r.mid == BsonId.oid (strLower parcelId)

/-- Strategy 2 of the delete chain: `{ _id: parcelId }` with the raw string. -/
def strat2 (parcelId : String) (r : Parcel) : Bool :=
  r.mid == BsonId.str parcelId

/-- Strategy 3 of the delete chain: `{ id: parcelId }`. -/
def strat3 (parcelId : String) (r : Parcel) : Bool :=
  r.idField == some parcelId

/-- Response of the delete handler, with one optional slot per JSON field the
three branches emit. -/
structure DeleteResponse where
  status : Nat
  error : Option String
  receivedId : Option String
  parcelId : Option String
  message : Option String
  deletedId : Option String
  deletedCount : Option Nat
  hint : Option String
deriving DecidableEq, Repr

/-- The 400 body `{ error: 'Invalid parcel ID format', receivedId }`. -/
def invalidIdResponse (parcelId : String) : DeleteResponse :=
  { status := 400, error := some "Invalid parcel ID format",
    receivedId := some parcelId, parcelId := none, message := none,
    deletedId := none, deletedCount := none, hint := none }

/-- The 404 body of the delete handler. -/
def deleteNotFoundResponse (parcelId : String) : DeleteResponse :=
  { status := 404, error := some "Parcel not found", receivedId := none,
    parcelId := some parcelId, message := none, deletedId := none,
    deletedCount := none,
    hint := some "Parcel may have been deleted already, or ID is incorrect. Use GET /parcels to list parcels." }

/-- The 200 body of the delete handler. -/
def deleteSuccessResponse (parcelId : String) (count : Nat) : DeleteResponse :=
  { status := 200, error := none, receivedId := none, parcelId := none,
    message := some "Parcel deleted successfully", deletedId := some parcelId,
    deletedCount := some count, hint := none }

/-- Body of `handleDeleteParcelById` after the initial `trim`: validate the
identifier, then try the three match strategies in order, falling through to
the next strategy only when the previous one deleted nothing. -/
def deleteTrimmed (store : List Parcel) (parcelId : String) :
    DeleteResponse × List Parcel :=
  if parcelId == "" || !(ObjectId.isValid parcelId) then
    (invalidIdResponse parcelId, store)
  else
    let r1 := deleteOne (strat1 parcelId) store
    let r2 := if r1.2 == 0 then deleteOne (strat2 parcelId) store else r1
    let r3 := if r2.2 == 0 then deleteOne (strat3 parcelId) store else r2
    if r3.2 == 0 then (deleteNotFoundResponse parcelId, store)
    else (deleteSuccessResponse parcelId r3.2, r3.1)

/-- Model of `handleDeleteParcelById`: the route parameter is trimmed before
validation and matching.  (Connection acquisition, which the source performs
first, is modelled separately by `connectToDatabase`.) -/
def handleDeleteParcelById (store : List Parcel) (rawId : String) :
    DeleteResponse × List Parcel :=
  deleteTrimmed store (jsTrim rawId)

/-! ## Email filter (`QueryBuilder`)

The listing handlers build a `$or` of `$regex` tests with the `i` option.
The term is passed to the regex engine unescaped, so it is a pattern, not a
literal.  The embedding `regexTestCI` is faithful to JavaScript regex
semantics (unanchored, case-insensitive search) for patterns whose only
metacharacter is `.`; every pattern this development evaluates is of that
shape. -/

/-- A pattern token: the `.` metacharacter or a literal character. -/
inductive RTok where
  | dot
  | lit (c : Char)
deriving DecidableEq, Repr

/-- Tokenise a pattern: `.` becomes the any-character token, everything else
is a literal. -/
def tokOfChar (c : Char) : RTok :=
  if c = '.' then RTok.dot else RTok.lit c

/-- Token list of a pattern string. -/
def patTokens (p : String) : List RTok := p.data.map tokOfChar

/-- One token against one subject character, case-insensitively. -/
def tokMatches : RTok → Char → Bool
  | .dot, _ => true
  | .lit l, c => l.toLower == c.toLower

/-- Match the whole token list at the start of the subject. -/
def matchHere : List RTok → List Char → Bool
  | [], _ => true
  | _ :: _, [] => false
  | t :: ts, c :: cs => tokMatches t c && matchHere ts cs

/-- Unanchored search: try to match at every start position. -/
def searchFrom (ts : List RTok) : List Char → Bool
  | [] => matchHere ts []
  | c :: cs => matchHere ts (c :: cs) || searchFrom ts cs

/-- Model of `new RegExp(p, 'i').test(s)` for patterns whose only
metacharacter is `.`; this is what `$regex` with `$options: 'i'` evaluates. -/
def regexTestCI (p s : String) : Bool := searchFrom (patTokens p) s.data

/-- A missing field never matches a `$regex` test. -/
def optRegexTest (p : String) : Option String → Bool
  | none => false
  | some v => regexTestCI p v

/-- Filter of `GET /parcels` (serverless variant): empty or absent term
matches everything (`if (email)` is false on the empty string), otherwise a
`$or` of case-insensitive regex tests over the five alias fields. -/
def buildEmailFilter (email : Option String) (r : Parcel) : Bool :=
  match email with
  | none => true
  | some t =>
    if t == "" then true
    else
      optRegexTest t r.email || optRegexTest t r.userEmail ||
      optRegexTest t r.senderEmail || optRegexTest t r.recipientEmail ||
      optRegexTest t r.creatorEmail

/-- Filter of the startup-connect variant's `GET /parcels`: same shape but
only four alias fields (no `creatorEmail`). -/
def buildEmailFilterLegacy (email : Option String) (r : Parcel) : Bool :=
  match email with
  | none => true
  | some t =>
    if t == "" then true
    else
      optRegexTest t r.email || optRegexTest t r.userEmail ||
      optRegexTest t r.senderEmail || optRegexTest t r.recipientEmail

/-! ### The specification's wording of the match, for comparison

The spec describes the filter as case-insensitive substring containment of
the term.  `containsCI` renders those words directly. -/

/-- Case-insensitive whole-needle match at the start of the haystack. -/
def litHere : List Char → List Char → Bool
  | [], _ => true
  | _ :: _, [] => false
  | n :: ns, c :: cs => n.toLower == c.toLower && litHere ns cs

/-- Case-insensitive substring search over all start positions. -/
def litSearch (ns : List Char) : List Char → Bool
  | [] => litHere ns []
  | c :: cs => litHere ns (c :: cs) || litSearch ns cs

/-- Modelled from the spec: `s` contains `t` as a case-insensitive
substring. -/
def containsCI (t s : String) : Bool := litSearch t.data s.data

/-- Modelled from the spec: an absent field contains nothing, a present one
is tested by case-insensitive substring containment. -/
def specOptContains (t : String) : Option String → Bool
  | none => false
  | some v => containsCI t v

/-- Modelled from the spec: at least one of the five alias fields contains
the term as a case-insensitive substring. -/
def specAliasSubstringMatch (t : String) (r : Parcel) : Bool :=
  specOptContains t r.email || specOptContains t r.userEmail ||
  specOptContains t r.senderEmail || specOptContains t r.recipientEmail ||
  specOptContains t r.creatorEmail

/-- JavaScript regex metacharacters; a term free of them is interpreted by
the regex engine exactly as a literal. -/
def isRegexMeta (c : Char) : Bool :=
  c = '.' || c = '*' || c = '+' || c = '?' || c = '^' || c = '$' ||
  c = '(' || c = ')' || c = '[' || c = ']' || c = '\x7b' || c = '\x7d' ||
  c = '|' || c = '\\'

/-- A search term with no regex metacharacters. -/
def metacharFree (t : String) : Bool := t.data.all fun c => !(isRegexMeta c)

/-! ## Compound sort (`defaultSort`)

The listing handlers sort with
`{ createdAt: -1, date: -1, timestamp: -1, _id: -1 }`: one simultaneous
multi-key sort, every key descending.  A missing field compares as BSON
null, which sorts below every number, and BSON orders the string type below
the ObjectId type. -/

/-- BSON comparison of two `_id` values: strings below ObjectIds, each kind
ordered within itself. -/
def cmpBsonId : BsonId → BsonId → Ordering
  | .str a, .str b => compare a b
  | .str _, .oid _ => .lt
  | .oid _, .str _ => .gt
  | .oid a, .oid b => compare a b

instance : Ord BsonId := ⟨cmpBsonId⟩

/-- The compound comparator of the sort specification: lexicographic over
the four keys in the written priority, each reversed (`-1` = descending).
Missing numeric fields are `none`, which the `Option` order places below
every present value, matching BSON null. -/
def parcelCmp : Parcel → Parcel → Ordering :=
  compareLex (flip (compareOn fun r : Parcel => r.createdAt))
    (compareLex (flip (compareOn fun r : Parcel => r.date))
      (compareLex (flip (compareOn fun r : Parcel => r.timestamp))
        (flip (compareOn fun r : Parcel => r.mid))))

/-- Nonstrict order induced by the compound comparator. -/
def parcelLE (a b : Parcel) : Prop := parcelCmp a b ≠ Ordering.gt

instance : DecidableRel parcelLE :=
  fun a b => inferInstanceAs (Decidable (parcelCmp a b ≠ Ordering.gt))

/-- The listing handlers' sort: the store ordered by the compound
comparator. -/
def sortParcels (l : List Parcel) : List Parcel :=
  List.insertionSort parcelLE l

/-! ### The specification's contrasting reading, for comparison -/

/-- Modelled from the spec: the per-record "use the first non-null field"
recency key that the spec explicitly distinguishes from the real compound
sort. -/
def fallbackKey (r : Parcel) : Option Int :=
  match r.createdAt with
  | some v => some v
  | none =>
    match r.date with
    | some v => some v
    | none => r.timestamp

/-- Modelled from the spec: descending order on the per-record fallback
key. -/
def fallbackLE (a b : Parcel) : Prop :=
  compare (fallbackKey b) (fallbackKey a) ≠ Ordering.gt

instance : DecidableRel fallbackLE :=
  fun a b =>
    inferInstanceAs (Decidable (compare (fallbackKey b) (fallbackKey a) ≠ Ordering.gt))

/-- Sorting by the spec's per-record fallback reading. -/
def sortFallback (l : List Parcel) : List Parcel :=
  List.insertionSort fallbackLE l

/-! ## Single fetch handler (`GET /parcels/:id`) -/

/-- Response of the single-record fetch handler.  On success the source
spreads the document and overwrites `_id` and `id` with the string form of
the locator; the two string slots model those two serialized fields. -/
structure FetchResponse where
  status : Nat
  error : Option String
  receivedId : Option String
  parcelId : Option String
  record : Option Parcel
  mongoIdString : Option String
  idString : Option String
deriving DecidableEq, Repr

/-- Model of the `GET /parcels/:id` handler: validate the identifier (no
trimming here), `findOne` by native ObjectId only, serialize on success. -/
def getParcelById (store : List Parcel) (parcelId : String) : FetchResponse :=
  if !(ObjectId.isValid parcelId) then
    { status := 400, error := some "Invalid parcel ID format",
      receivedId := some parcelId, parcelId := none, record := none,
      mongoIdString := none, idString := none }
  else
    match store.find? (strat1 parcelId) with
    | none =>
      { status := 404, error := some "Parcel not found", receivedId := none,
        parcelId := some parcelId, record := none, mongoIdString := none,
        idString := none }
    | some r =>
      { status := 200, error := none, receivedId := none, parcelId := none,
        record := some r, mongoIdString := some r.mid.asString,
        idString := some r.mid.asString }

/-! ## ConnectionCache (`connectToDatabase`)

The serverless variant keeps three process-wide slots (`cachedClient`,
`cachedDb`, `cachedCollection`).  The environment of one call supplies what
the outside world would do: whether the two credential variables are set,
whether the liveness ping on a cached connection would succeed, and whether
a fresh `client.connect()` would succeed (and with which client, numbered
opaquely).  The outcome records the returned value or error, the cache
slots after the call, and how many fresh connect attempts were made. -/

/-- External behaviour presented to one `connectToDatabase` call. -/
structure ConnEnv where
  dbUser : Bool
  dbPassword : Bool
  pingOk : Bool
  connectOk : Option Nat
  connectErrMsg : String
deriving DecidableEq, Repr

/-- Errors `connectToDatabase` can throw. -/
inductive ConnError where
  | configError
  | connectError (msg : String)
deriving DecidableEq, Repr

/-- Message carried by each error; the configuration message is the literal
thrown by the source. -/
def connErrorMessage : ConnError → String
  | .configError => "DB_USER and DB_PASSWORD environment variables are required"
  | .connectError m => m

/-- The triple returned by a successful `connectToDatabase`. -/
structure DbHandle where
  client : Nat
  db : Nat
  collection : Nat
deriving DecidableEq, Repr

/-- Model of `client.db("parcelDB")`, an opaque derivation from the client. -/
def clientDb (c : Nat) : Nat := c

/-- Model of `db.collection("parcels")`, an opaque derivation from the db. -/
def dbCollection (d : Nat) : Nat := d

/-- The three module-level cache slots. -/
structure Cache where
  cachedClient : Option Nat
  cachedDb : Option Nat
  cachedCollection : Option Nat
deriving DecidableEq, Repr

/-- The slots at process start: all null. -/
def emptyCache : Cache := ⟨none, none, none⟩

/-- Result of one `connectToDatabase` call. -/
structure ConnOutcome where
  result : Except ConnError DbHandle
  cache : Cache
  connects : Nat
deriving Repr

/-- Whether the call returned a handle. -/
def ConnOutcome.ok : ConnOutcome → Bool
  | ⟨.ok _, _, _⟩ => true
  | ⟨.error _, _, _⟩ => false

/-- The `try` block of `connectToDatabase`: check credentials (throwing
before any connect attempt), attempt the connect, and populate all three
cache slots only after the connect succeeded; on failure the slots are left
exactly as they were. -/
def connectAttempt (env : ConnEnv) (st : Cache) : ConnOutcome :=
  if !env.dbUser || !env.dbPassword then
    ⟨.error ConnError.configError, st, 0⟩
  else
    match env.connectOk with
    | none => ⟨.error (ConnError.connectError env.connectErrMsg), st, 1⟩
    | some c =>
      ⟨.ok ⟨c, clientDb c, dbCollection (clientDb c)⟩,
        ⟨some c, some (clientDb c), some (dbCollection (clientDb c))⟩, 1⟩

/-- Model of `connectToDatabase`: with all three slots populated, ping the
cached connection and return it on success; on ping failure clear the slots
and fall through to a fresh connect; with any slot missing go straight to
the fresh connect. -/
def connectToDatabase (env : ConnEnv) (st : Cache) : ConnOutcome :=
  match st.cachedClient, st.cachedDb, st.cachedCollection with
  | some c, some d, some col =>
    if env.pingOk then ⟨.ok ⟨c, d, col⟩, st, 0⟩
    else connectAttempt env emptyCache
  | _, _, _ => connectAttempt env st

/-! ## Listing handlers and their error mapping (`GET /parcels`) -/

/-- Response of a listing handler. -/
structure ListResponse where
  status : Nat
  records : List Parcel
  error : Option String
  message : Option String
deriving DecidableEq, Repr

/-- Model of the serverless `GET /parcels` handler: acquire a connection,
filter and sort; any thrown error (configuration or connectivity alike) is
caught by the route and mapped to HTTP 500 with the underlying message
forwarded. -/
def getParcelsServerless (env : ConnEnv) (st : Cache) (store : List Parcel)
    (email : Option String) : ListResponse :=
  match (connectToDatabase env st).result with
  | .error e =>
    { status := 500, records := [],
      error := some "Failed to fetch parcels",
      message := some (connErrorMessage e) }
  | .ok _ =>
    { status := 200, records := sortParcels (store.filter (buildEmailFilter email)),
      error := none, message := none }

/-- Model of the startup-connect variant's `GET /parcels` handler: when the
module-level collection handle was never populated (credentials absent at
startup, or the startup connect failed) it answers 503 with a fixed body. -/
def getParcelsLegacy (coll : Option (List Parcel)) (email : Option String) :
    ListResponse :=
  match coll with
  | none =>
    { status := 503, records := [],
      error := some "Database not connected", message := none }
  | some store =>
    { status := 200,
      records := sortParcels (store.filter (buildEmailFilterLegacy email)),
      error := none, message := none }

/-! ## Concrete sample data used by counterexamples and witnesses -/

/-- A parcel with every optional attribute absent and a fixed locator. -/
def blankParcel : Parcel :=
  { mid := BsonId.oid "aaaaaaaaaaaaaaaaaaaaaaaa", idField := none,
    email := none, userEmail := none, senderEmail := none,
    recipientEmail := none, creatorEmail := none,
    createdAt := none, date := none, timestamp := none }

/-- A record whose only identifier usable by the delete chain is the scalar
`id` field holding a non-locator string. -/
def legacyIdParcel : Parcel :=
  { blankParcel with idField := some "not-a-valid-id" }

/-- A record whose single populated alias field is `email := "a"`. -/
def singleEmailParcel : Parcel :=
  { blankParcel with email := some "a" }

/-- A record carrying an address only in the `senderEmail` alias field. -/
def senderParcel : Parcel :=
  { blankParcel with senderEmail := some "a@x.com" }

/-- A record with only the second recency field (`date`) present. -/
def dateOnlyParcel : Parcel :=
  { blankParcel with date := some 5 }

/-- A record with only the first recency field (`createdAt`) present, and a
distinct locator. -/
def createdOnlyParcel : Parcel :=
  { blankParcel with
    mid := BsonId.oid "bbbbbbbbbbbbbbbbbbbbbbbb",
    createdAt := some 1 }

/-! ## Supporting lemmas -/

theorem deleteOne_eq_nomatch (p : Parcel → Bool) (l : List Parcel)
    (h : ∀ r ∈ l, p r = false) : deleteOne p l = (l, 0) := by
  induction l with
  | nil => rfl
  | cons a as ih =>
    have ha : p a = false := h a (List.mem_cons_self a as)
    have has : ∀ r ∈ as, p r = false := fun r hr => h r (List.mem_cons_of_mem a hr)
    simp [deleteOne, ha, ih has]

theorem deleteOne_cases (p : Parcel → Bool) (l : List Parcel) :
    (deleteOne p l = (l, 0) ∧ ∀ r ∈ l, p r = false) ∨
    ((deleteOne p l).2 = 1 ∧ (deleteOne p l).1.length + 1 = l.length ∧
      ∃ r ∈ l, p r = true) := by
  induction l with
  | nil => exact Or.inl ⟨rfl, by simp⟩
  | cons a as ih =>
    by_cases ha : p a = true
    · right
      refine ⟨by simp [deleteOne, ha], by simp [deleteOne, ha], a, List.mem_cons_self a as, ha⟩
    · have ha2 : p a = false := by
        cases hpa : p a with
        | false => rfl
        | true => exact absurd hpa ha
      rcases ih with ⟨he, hall⟩ | ⟨hc, hlen, r, hr, hpr⟩
      · left
        constructor
        · simp [deleteOne, ha2, he]
        · intro r hr
          rcases List.mem_cons.mp hr with rfl | h
          · exact ha2
          · exact hall r h
      · right
        refine ⟨by simp [deleteOne, ha2, hc], ?_, r, List.mem_cons_of_mem a hr, hpr⟩
        simp only [deleteOne, ha2, if_neg]
        simpa using hlen

theorem valid_ne_empty {pid : String} (h : ObjectId.isValid pid = true) :
    (pid == "") = false := by
  cases he : pid == "" with
  | false => rfl
  | true =>
    have : pid = "" := by simpa using he
    subst this
    simp [ObjectId.isValid] at h

theorem deleteTrimmed_invalid (store : List Parcel) (pid : String)
    (h : ObjectId.isValid pid = false) :
    deleteTrimmed store pid = (invalidIdResponse pid, store) := by
  unfold deleteTrimmed
  simp [h]

theorem deleteTrimmed_notFound (store : List Parcel) (pid : String)
    (hv : ObjectId.isValid pid = true)
    (h : ∀ r ∈ store, strat1 pid r = false ∧ strat2 pid r = false ∧
      strat3 pid r = false) :
    deleteTrimmed store pid = (deleteNotFoundResponse pid, store) := by
  have e1 : deleteOne (strat1 pid) store = (store, 0) :=
    deleteOne_eq_nomatch _ _ fun r hr => (h r hr).1
  have e2 : deleteOne (strat2 pid) store = (store, 0) :=
    deleteOne_eq_nomatch _ _ fun r hr => (h r hr).2.1
  have e3 : deleteOne (strat3 pid) store = (store, 0) :=
    deleteOne_eq_nomatch _ _ fun r hr => (h r hr).2.2
  unfold deleteTrimmed
  simp [hv, valid_ne_empty hv, e1, e2, e3]

theorem deleteTrimmed_deletes (store : List Parcel) (pid : String)
    (hv : ObjectId.isValid pid = true)
    (h : ∃ r ∈ store, strat1 pid r = true ∨ strat2 pid r = true ∨
      strat3 pid r = true) :
    (deleteTrimmed store pid).1.status = 200 ∧
    (deleteTrimmed store pid).1.deletedCount = some 1 ∧
    (deleteTrimmed store pid).2.length + 1 = store.length := by
  unfold deleteTrimmed
  rcases deleteOne_cases (strat1 pid) store with ⟨he1, hall1⟩ | ⟨hc1, hlen1, hex1⟩
  · rcases deleteOne_cases (strat2 pid) store with ⟨he2, hall2⟩ | ⟨hc2, hlen2, hex2⟩
    · rcases deleteOne_cases (strat3 pid) store with ⟨he3, hall3⟩ | ⟨hc3, hlen3, hex3⟩
      · rcases h with ⟨r, hr, h1 | h2 | h3⟩
        · exact absurd h1 (by simp [hall1 r hr])
        · exact absurd h2 (by simp [hall2 r hr])
        · exact absurd h3 (by simp [hall3 r hr])
      · simp [hv, valid_ne_empty hv, he1, he2, hc3, deleteSuccessResponse, hlen3]
    · simp [hv, valid_ne_empty hv, he1, hc2, deleteSuccessResponse, hlen2]
  · simp [hv, valid_ne_empty hv, hc1, deleteSuccessResponse, hlen1]

theorem isHexChar_not_ws {c : Char} (h : isHexChar c = true) :
    isWsChar c = false := by
  cases hw : isWsChar c with
  | false => rfl
  | true =>
    exfalso
    have hw2 : ((c = ' ' ∨ c = '\t') ∨ c = '\r') ∨ c = '\n' := by
      simpa [isWsChar, Char.isWhitespace] using hw
    rcases hw2 with ((rfl | rfl) | rfl) | rfl <;> simp [isHexChar] at h

theorem dropWhile_eq_self_of_all (l : List Char)
    (h : ∀ c ∈ l, isWsChar c = false) : l.dropWhile isWsChar = l := by
  cases l with
  | nil => rfl
  | cons a as => simp [List.dropWhile_cons, h a (List.mem_cons_self a as)]

theorem trimChars_eq_self (l : List Char)
    (h : ∀ c ∈ l, isWsChar c = false) : trimChars l = l := by
  unfold trimChars
  rw [dropWhile_eq_self_of_all l h,
    dropWhile_eq_self_of_all l.reverse (fun c hc => h c (List.mem_reverse.mp hc)),
    List.reverse_reverse]

theorem jsTrim_eq_of_isValid {pid : String} (h : ObjectId.isValid pid = true) :
    jsTrim pid = pid := by
  have hall : ∀ c ∈ pid.data, isHexChar c = true := by
    have := (Bool.and_eq_true _ _).mp h
    exact fun c hc => List.all_eq_true.mp this.2 c hc
  show String.mk (trimChars pid.data) = pid
  rw [trimChars_eq_self pid.data fun c hc => isHexChar_not_ws (hall c hc)]

/-! ## Claim C1 -/

/-- C1, counterexample: the delete handler rejects the identifier
`not-a-valid-id` with a 400 validation error and leaves the store untouched,
even though the store holds a record whose scalar `id` field equals that
identifier (so strategy 3 would have matched).  This refutes the claim that
strategies 2 and 3 are still attempted after format validation fails and
that the result is then NotFound. -/
theorem c1_counterexample :
    (handleDeleteParcelById [legacyIdParcel] "not-a-valid-id").1.status = 400 ∧
    (handleDeleteParcelById [legacyIdParcel] "not-a-valid-id").1.status ≠ 404 ∧
    (handleDeleteParcelById [legacyIdParcel] "not-a-valid-id").2 = [legacyIdParcel] ∧
    strat3 "not-a-valid-id" legacyIdParcel = true := by decide

/-- C1, amended: an identifier whose trimmed form fails locator-format
validation is rejected at once with the 400 validation response and no
strategy is attempted; when validation passes, a store matching none of the
three strategies yields NotFound, and a store matching any of them yields a
deletion. -/
theorem c1_spec (store : List Parcel) (raw : String) :
    (ObjectId.isValid (jsTrim raw) = false →
      handleDeleteParcelById store raw = (invalidIdResponse (jsTrim raw), store)) ∧
    (ObjectId.isValid (jsTrim raw) = true →
      (∀ r ∈ store, strat1 (jsTrim raw) r = false ∧ strat2 (jsTrim raw) r = false ∧
        strat3 (jsTrim raw) r = false) →
      handleDeleteParcelById store raw = (deleteNotFoundResponse (jsTrim raw), store)) ∧
    (ObjectId.isValid (jsTrim raw) = true →
      (∃ r ∈ store, strat1 (jsTrim raw) r = true ∨ strat2 (jsTrim raw) r = true ∨
        strat3 (jsTrim raw) r = true) →
      (handleDeleteParcelById store raw).1.status = 200) := by
  refine ⟨fun h => ?_, fun hv hall => ?_, fun hv hex => ?_⟩
  · exact deleteTrimmed_invalid store (jsTrim raw) h
  · exact deleteTrimmed_notFound store (jsTrim raw) hv hall
  · exact (deleteTrimmed_deletes store (jsTrim raw) hv hex).1

/-- C1, witness: the amended theorem applied to the identifier `zz`. -/
theorem c1_witness :
    handleDeleteParcelById [blankParcel] "zz" =
      (invalidIdResponse (jsTrim "zz"), [blankParcel]) :=
  (c1_spec [blankParcel] "zz").1 (by decide)

/-! ## Claim C4 -/

/-- C4: with a validly formatted identifier, a store matching some strategy
loses exactly one document and the response reports a deleted count of 1;
a store matching no strategy is answered with 404 (never 400) and is left
unchanged. -/
theorem c4_spec (store : List Parcel) (pid : String) :
    (ObjectId.isValid pid = true →
      (∃ r ∈ store, strat1 pid r = true ∨ strat2 pid r = true ∨
        strat3 pid r = true) →
      (handleDeleteParcelById store pid).1.status = 200 ∧
      (handleDeleteParcelById store pid).1.deletedCount = some 1 ∧
      (handleDeleteParcelById store pid).2.length + 1 = store.length) ∧
    (ObjectId.isValid pid = true →
      (∀ r ∈ store, strat1 pid r = false ∧ strat2 pid r = false ∧
        strat3 pid r = false) →
      (handleDeleteParcelById store pid).1.status = 404 ∧
      (handleDeleteParcelById store pid).1.status ≠ 400 ∧
      (handleDeleteParcelById store pid).2 = store) := by
  constructor
  · intro hv hex
    unfold handleDeleteParcelById
    rw [jsTrim_eq_of_isValid hv]
    exact deleteTrimmed_deletes store pid hv hex
  · intro hv hall
    unfold handleDeleteParcelById
    rw [jsTrim_eq_of_isValid hv, deleteTrimmed_notFound store pid hv hall]
    refine ⟨rfl, ?_, rfl⟩
    show (404 : Nat) ≠ 400
    decide

/-- C4, witness: deleting the record stored under the hex locator
`aaaaaaaaaaaaaaaaaaaaaaaa` from a one-record store, and deleting the absent
hex locator `cccccccccccccccccccccccc` from it. -/
theorem c4_witness :
    ((handleDeleteParcelById [blankParcel] "aaaaaaaaaaaaaaaaaaaaaaaa").1.status = 200 ∧
      (handleDeleteParcelById [blankParcel] "aaaaaaaaaaaaaaaaaaaaaaaa").1.deletedCount = some 1 ∧
      (handleDeleteParcelById [blankParcel] "aaaaaaaaaaaaaaaaaaaaaaaa").2.length + 1 =
        [blankParcel].length) ∧
    ((handleDeleteParcelById [blankParcel] "cccccccccccccccccccccccc").1.status = 404 ∧
      (handleDeleteParcelById [blankParcel] "cccccccccccccccccccccccc").1.status ≠ 400 ∧
      (handleDeleteParcelById [blankParcel] "cccccccccccccccccccccccc").2 = [blankParcel]) :=
  ⟨(c4_spec [blankParcel] "aaaaaaaaaaaaaaaaaaaaaaaa").1 (by decide) (by decide),
   (c4_spec [blankParcel] "cccccccccccccccccccccccc").2 (by decide) (by decide)⟩

/-! ## Claim C5 -/

/-- C5, counterexample: for the invalid identifier ` not-a-valid-id ` (the
literal input carries surrounding spaces) the response is 400 but its
`receivedId` is the trimmed string, not the literal identifier the caller
supplied. -/
theorem c5_counterexample :
    (handleDeleteParcelById [] " not-a-valid-id ").1.status = 400 ∧
    (handleDeleteParcelById [] " not-a-valid-id ").1.receivedId = some "not-a-valid-id" ∧
    (handleDeleteParcelById [] " not-a-valid-id ").1.receivedId ≠ some " not-a-valid-id " := by
  decide

/-- C5, amended: an identifier whose trimmed form is not a validly formatted
locator is answered with 400 and a `receivedId` equal to the trimmed
identifier; this equals the literal input exactly when the input carries no
surrounding whitespace. -/
theorem c5_spec (store : List Parcel) (raw : String) :
    (ObjectId.isValid (jsTrim raw) = false →
      (handleDeleteParcelById store raw).1.status = 400 ∧
      (handleDeleteParcelById store raw).1.receivedId = some (jsTrim raw)) ∧
    (jsTrim raw = raw → ObjectId.isValid raw = false →
      (handleDeleteParcelById store raw).1.receivedId = some raw) := by
  constructor
  · intro h
    unfold handleDeleteParcelById
    rw [deleteTrimmed_invalid store (jsTrim raw) h]
    exact ⟨rfl, rfl⟩
  · intro ht h
    unfold handleDeleteParcelById
    rw [ht, deleteTrimmed_invalid store raw h]
    rfl

/-- C5, witness: the amended theorem applied to the identifier
`not-a-valid-id`, which carries no surrounding whitespace. -/
theorem c5_witness :
    (handleDeleteParcelById [] "not-a-valid-id").1.status = 400 ∧
    (handleDeleteParcelById [] "not-a-valid-id").1.receivedId =
      some (jsTrim "not-a-valid-id") :=
  (c5_spec [] "not-a-valid-id").1 (by decide)

/-! ## Claim C9 -/

/-- C9: the delete handler is insensitive to surrounding whitespace — two
identifiers with the same trimmed form produce identical outcomes — and the
`receivedId` echoed by the 400 branch is the trimmed identifier. -/
theorem c9_spec (store : List Parcel) (raw1 raw2 : String) :
    (jsTrim raw1 = jsTrim raw2 →
      handleDeleteParcelById store raw1 = handleDeleteParcelById store raw2) ∧
    (ObjectId.isValid (jsTrim raw1) = false →
      (handleDeleteParcelById store raw1).1.receivedId = some (jsTrim raw1)) := by
  constructor
  · intro h
    unfold handleDeleteParcelById
    rw [h]
  · intro h
    unfold handleDeleteParcelById
    rw [deleteTrimmed_invalid store (jsTrim raw1) h]
    rfl

/-- C9, witness: padding the identifier `abc` with surrounding whitespace
does not change the outcome, and the echoed `receivedId` is the trimmed
form. -/
theorem c9_witness :
    (handleDeleteParcelById [blankParcel] "  abc " =
      handleDeleteParcelById [blankParcel] "abc") ∧
    (handleDeleteParcelById [blankParcel] "  abc ").1.receivedId = some (jsTrim "  abc ") :=
  ⟨((c9_spec [blankParcel] "  abc " "abc").1 (by decide)),
   ((c9_spec [blankParcel] "  abc " "abc").2 (by decide))⟩

/-! ## Claim C8 -/

/-- C8: the single-record fetch answers 400 with the echoed identifier on a
format-invalid identifier, 404 when a well-formed identifier matches no
record, and on a match returns the record with both the locator and the
`id` field serialized as strings. -/
theorem c8_spec (store : List Parcel) (pid : String) :
    (ObjectId.isValid pid = false →
      (getParcelById store pid).status = 400 ∧
      (getParcelById store pid).receivedId = some pid) ∧
    (ObjectId.isValid pid = true → store.find? (strat1 pid) = none →
      (getParcelById store pid).status = 404 ∧
      (getParcelById store pid).parcelId = some pid) ∧
    (∀ r : Parcel, ObjectId.isValid pid = true → store.find? (strat1 pid) = some r →
      (getParcelById store pid).status = 200 ∧
      (getParcelById store pid).record = some r ∧
      (getParcelById store pid).mongoIdString = some r.mid.asString ∧
      (getParcelById store pid).idString = some r.mid.asString) := by
  refine ⟨fun h => ?_, fun hv hf => ?_, fun r hv hf => ?_⟩
  · simp [getParcelById, h]
  · simp [getParcelById, hv, hf]
  · simp [getParcelById, hv, hf]

/-- C8, witness: fetching with the malformed identifier `zz`, and fetching
the record stored under `aaaaaaaaaaaaaaaaaaaaaaaa`. -/
theorem c8_witness :
    ((getParcelById [] "zz").status = 400 ∧
      (getParcelById [] "zz").receivedId = some "zz") ∧
    ((getParcelById [blankParcel] "aaaaaaaaaaaaaaaaaaaaaaaa").status = 200 ∧
      (getParcelById [blankParcel] "aaaaaaaaaaaaaaaaaaaaaaaa").record = some blankParcel ∧
      (getParcelById [blankParcel] "aaaaaaaaaaaaaaaaaaaaaaaa").mongoIdString =
        some blankParcel.mid.asString ∧
      (getParcelById [blankParcel] "aaaaaaaaaaaaaaaaaaaaaaaa").idString =
        some blankParcel.mid.asString) :=
  ⟨(c8_spec [] "zz").1 (by decide),
   (c8_spec [blankParcel] "aaaaaaaaaaaaaaaaaaaaaaaa").2.2 blankParcel
     (by decide) (by decide)⟩

/-! ## Claim C3 -/

/-- C3, counterexample: the term `.` (a regex metacharacter, passed to the
store unescaped) matches the record whose email field is `a`, although `.`
is not a substring of `a`; the claimed equivalence with case-insensitive
substring containment fails. -/
theorem c3_counterexample :
    buildEmailFilter (some ".") singleEmailParcel = true ∧
    specAliasSubstringMatch "." singleEmailParcel = false := by decide

theorem matchHere_lit (ts : List Char) (h : ∀ c ∈ ts, c ≠ '.') :
    ∀ cs : List Char, matchHere (ts.map tokOfChar) cs = litHere ts cs := by
  induction ts with
  | nil => intro cs; cases cs <;> rfl
  | cons a as ih =>
    intro cs
    have ha : tokOfChar a = RTok.lit a :=
      if_neg (h a (List.mem_cons_self a as))
    cases cs with
    | nil => rfl
    | cons c cs =>
      have has : ∀ c ∈ as, c ≠ '.' := fun c hc => h c (List.mem_cons_of_mem a hc)
      simp [matchHere, litHere, ha, tokMatches, ih has]

theorem searchFrom_lit (ts : List Char) (h : ∀ c ∈ ts, c ≠ '.') :
    ∀ cs : List Char, searchFrom (ts.map tokOfChar) cs = litSearch ts cs := by
  intro cs
  induction cs with
  | nil => exact matchHere_lit ts h []
  | cons c cs ih => simp [searchFrom, litSearch, matchHere_lit ts h, ih]

theorem regexTestCI_eq_containsCI {t : String} (h : metacharFree t = true)
    (s : String) : regexTestCI t s = containsCI t s := by
  have hdot : ∀ c ∈ t.data, c ≠ '.' := by
    intro c hc he
    have := List.all_eq_true.mp h c hc
    subst he
    simp [isRegexMeta] at this
  exact searchFrom_lit t.data hdot s.data

theorem optRegexTest_eq_specOptContains {t : String} (h : metacharFree t = true)
    (o : Option String) : optRegexTest t o = specOptContains t o := by
  cases o with
  | none => rfl
  | some v => exact regexTestCI_eq_containsCI h v

/-- C3, amended: for a non-empty search term free of regex metacharacters,
the filter matches a record exactly when one of the five alias fields
contains the term as a case-insensitive substring; an empty or absent term
matches every record.  (The term is handed to the store as an unescaped
pattern, so for terms carrying metacharacters the match is regex matching,
not substring containment.) -/
theorem c3_spec (t : String) (r : Parcel) :
    (metacharFree t = true → (t == "") = false →
      (buildEmailFilter (some t) r = true ↔ specAliasSubstringMatch t r = true)) ∧
    buildEmailFilter none r = true ∧
    buildEmailFilter (some "") r = true := by
  refine ⟨fun hm hne => ?_, rfl, rfl⟩
  simp only [buildEmailFilter, hne, Bool.false_eq_true, if_false,
    specAliasSubstringMatch, optRegexTest_eq_specOptContains hm]

/-- C3, witness: the term `A@X` (no metacharacters) is matched, exactly as
substring containment, against the record whose `senderEmail` is
`a@x.com`. -/
theorem c3_witness :
    buildEmailFilter (some "A@X") senderParcel = true ↔
      specAliasSubstringMatch "A@X" senderParcel = true :=
  (c3_spec "A@X" senderParcel).1 (by decide) (by decide)

/-! ## Claims C2 and C10 (ConnectionCache) -/

theorem connectAttempt_ok_cache (env : ConnEnv) (st : Cache) (h : DbHandle)
    (hok : (connectAttempt env st).result = Except.ok h) :
    (connectAttempt env st).cache = ⟨some h.client, some h.db, some h.collection⟩ := by
  unfold connectAttempt at hok ⊢
  by_cases hu : (!env.dbUser || !env.dbPassword) = true
  · rw [if_pos hu] at hok
    simp at hok
  · rw [if_neg hu] at hok ⊢
    cases hco : env.connectOk with
    | none =>
      rw [hco] at hok
      simp at hok
    | some c =>
      rw [hco] at hok
      have hok2 : (⟨c, clientDb c, dbCollection (clientDb c)⟩ : DbHandle) = h :=
        Except.ok.inj hok
      subst hok2
      rfl

theorem connectToDatabase_ok_cache (env : ConnEnv) (st : Cache) (h : DbHandle)
    (hok : (connectToDatabase env st).result = Except.ok h) :
    (connectToDatabase env st).cache = ⟨some h.client, some h.db, some h.collection⟩ := by
  rcases st with ⟨oc, od, ocol⟩
  rcases oc with _ | c
  · exact connectAttempt_ok_cache env _ h hok
  · rcases od with _ | d
    · exact connectAttempt_ok_cache env _ h hok
    · rcases ocol with _ | col
      · exact connectAttempt_ok_cache env _ h hok
      · by_cases hp : env.pingOk = true
        · have e : connectToDatabase env ⟨some c, some d, some col⟩ =
              ⟨Except.ok ⟨c, d, col⟩, ⟨some c, some d, some col⟩, 0⟩ := by
            simp [connectToDatabase, hp]
          rw [e] at hok ⊢
          simp only [Except.ok.injEq] at hok
          rw [← hok]
        · have e : connectToDatabase env ⟨some c, some d, some col⟩ =
              connectAttempt env emptyCache := by
            simp [connectToDatabase, hp]
          rw [e] at hok ⊢
          exact connectAttempt_ok_cache env _ h hok

/-- C2: a successful call leaves the cache holding exactly the handle it
returned; a later call finding a populated cache whose liveness ping
succeeds returns that same cached handle with zero fresh connects; a later
call whose ping fails performs exactly one fresh connect, returns the new
handle, and caches it together with its derived db and collection
references. -/
theorem c2_spec (c d col : Nat) (env : ConnEnv) :
    (env.pingOk = true →
      connectToDatabase env ⟨some c, some d, some col⟩ =
        ⟨Except.ok ⟨c, d, col⟩, ⟨some c, some d, some col⟩, 0⟩) ∧
    (∀ c2 : Nat, env.pingOk = false → env.dbUser = true → env.dbPassword = true →
      env.connectOk = some c2 →
      connectToDatabase env ⟨some c, some d, some col⟩ =
        ⟨Except.ok ⟨c2, clientDb c2, dbCollection (clientDb c2)⟩,
          ⟨some c2, some (clientDb c2), some (dbCollection (clientDb c2))⟩, 1⟩) ∧
    (∀ (st : Cache) (h : DbHandle),
      (connectToDatabase env st).result = Except.ok h →
      (connectToDatabase env st).cache =
        ⟨some h.client, some h.db, some h.collection⟩) := by
  refine ⟨fun hp => ?_, fun c2 hp hu hpw hco => ?_, fun st h hok => ?_⟩
  · simp [connectToDatabase, hp]
  · simp [connectToDatabase, connectAttempt, hp, hu, hpw, hco]
  · exact connectToDatabase_ok_cache env st h hok

/-- C2, witness: with client 7 cached and a succeeding ping the call returns
the cached triple with zero connects; after a failing ping it returns and
caches the freshly connected client 9. -/
theorem c2_witness :
    (connectToDatabase ⟨true, true, true, none, ""⟩ ⟨some 7, some 7, some 7⟩ =
      ⟨Except.ok ⟨7, 7, 7⟩, ⟨some 7, some 7, some 7⟩, 0⟩) ∧
    (connectToDatabase ⟨true, true, false, some 9, ""⟩ ⟨some 7, some 7, some 7⟩ =
      ⟨Except.ok ⟨9, clientDb 9, dbCollection (clientDb 9)⟩,
        ⟨some 9, some (clientDb 9), some (dbCollection (clientDb 9))⟩, 1⟩) :=
  ⟨(c2_spec 7 7 7 ⟨true, true, true, none, ""⟩).1 rfl,
   (c2_spec 7 7 7 ⟨true, true, false, some 9, ""⟩).2.1 9 rfl rfl rfl rfl⟩

/-- C10: an acquisition from the absent cache takes the fresh-connect path;
if it fails (configuration or connectivity), the cache is still absent
afterwards and the next call takes the full fresh-connect path again; the
cache leaves the absent state only when the call succeeded, and then it
holds exactly the returned handle. -/
theorem c10_spec (env : ConnEnv) :
    connectToDatabase env emptyCache = connectAttempt env emptyCache ∧
    ((connectToDatabase env emptyCache).ok = false →
      (connectToDatabase env emptyCache).cache = emptyCache ∧
      ∀ env2 : ConnEnv,
        connectToDatabase env2 (connectToDatabase env emptyCache).cache =
          connectAttempt env2 (connectToDatabase env emptyCache).cache) ∧
    ((connectToDatabase env emptyCache).cache ≠ emptyCache →
      ∃ h : DbHandle, (connectToDatabase env emptyCache).result = Except.ok h ∧
        (connectToDatabase env emptyCache).cache =
          ⟨some h.client, some h.db, some h.collection⟩) := by
  refine ⟨rfl, ?_, ?_⟩
  · intro hfail
    have hcache : (connectToDatabase env emptyCache).cache = emptyCache := by
      show (connectAttempt env emptyCache).cache = emptyCache
      unfold connectAttempt
      by_cases hu : (!env.dbUser || !env.dbPassword) = true
      · rw [if_pos hu]
      · rw [if_neg hu]
        cases hco : env.connectOk with
        | none => rfl
        | some c =>
          exfalso
          revert hfail
          show ¬((connectToDatabase env emptyCache).ok = false)
          have : connectToDatabase env emptyCache =
              ⟨Except.ok ⟨c, clientDb c, dbCollection (clientDb c)⟩,
                ⟨some c, some (clientDb c), some (dbCollection (clientDb c))⟩, 1⟩ := by
            show connectAttempt env emptyCache = _
            unfold connectAttempt
            rw [if_neg hu, hco]
          rw [this]
          simp [ConnOutcome.ok]
    refine ⟨hcache, fun env2 => ?_⟩
    rw [hcache]
    rfl
  · intro hne
    rcases hok : (connectToDatabase env emptyCache).result with e | h
    · exfalso
      apply hne
      show (connectAttempt env emptyCache).cache = emptyCache
      unfold connectAttempt
      by_cases hu : (!env.dbUser || !env.dbPassword) = true
      · rw [if_pos hu]
      · rw [if_neg hu]
        cases hco : env.connectOk with
        | none => rfl
        | some c =>
          exfalso
          have : (connectToDatabase env emptyCache).result =
              Except.ok ⟨c, clientDb c, dbCollection (clientDb c)⟩ := by
            show (connectAttempt env emptyCache).result = _
            unfold connectAttempt
            rw [if_neg hu, hco]
          rw [this] at hok
          exact Except.noConfusion hok
    · exact ⟨h, rfl, connectToDatabase_ok_cache env emptyCache h hok⟩

/-- C10, witness: with both credentials absent the acquisition fails and the
cache stays absent, so the next acquisition attempts a full fresh
connect. -/
theorem c10_witness :
    (connectToDatabase ⟨false, false, true, none, "x"⟩ emptyCache).cache = emptyCache ∧
    ∀ env2 : ConnEnv,
      connectToDatabase env2
          (connectToDatabase ⟨false, false, true, none, "x"⟩ emptyCache).cache =
        connectAttempt env2
          (connectToDatabase ⟨false, false, true, none, "x"⟩ emptyCache).cache :=
  (c10_spec ⟨false, false, true, none, "x"⟩).2.1 (by decide)

/-! ## Claim C6 -/

/-- C6, counterexample: in the serverless variant, a listing invoked with
both credentials absent (and an empty cache) is answered with HTTP 500 and
the forwarded configuration message — not with the claimed HTTP 503
"database not connected" body. -/
theorem c6_counterexample :
    (getParcelsServerless ⟨false, false, true, none, ""⟩ emptyCache [] none).status = 500 ∧
    (getParcelsServerless ⟨false, false, true, none, ""⟩ emptyCache [] none).status ≠ 503 ∧
    (getParcelsServerless ⟨false, false, true, none, ""⟩ emptyCache [] none).message =
      some "DB_USER and DB_PASSWORD environment variables are required" := by decide

/-- C6, amended: only the startup-connect variant answers 503 "Database not
connected", and it does so whenever its collection handle is absent; in the
serverless variant a missing credential pair surfaces through the route
catch exactly like a connectivity failure, as HTTP 500 with the underlying
message forwarded. -/
theorem c6_spec (b pOk : Bool) (cr : Option Nat) (m : String)
    (store : List Parcel) (em : Option String) :
    ((getParcelsLegacy none em).status = 503 ∧
      (getParcelsLegacy none em).error = some "Database not connected") ∧
    ((getParcelsServerless ⟨false, b, pOk, cr, m⟩ emptyCache store em).status = 500 ∧
      (getParcelsServerless ⟨false, b, pOk, cr, m⟩ emptyCache store em).message =
        some (connErrorMessage ConnError.configError)) ∧
    ((getParcelsServerless ⟨b, false, pOk, cr, m⟩ emptyCache store em).status = 500 ∧
      (getParcelsServerless ⟨b, false, pOk, cr, m⟩ emptyCache store em).message =
        some (connErrorMessage ConnError.configError)) ∧
    ((getParcelsServerless ⟨true, true, pOk, none, m⟩ emptyCache store em).status = 500 ∧
      (getParcelsServerless ⟨true, true, pOk, none, m⟩ emptyCache store em).message =
        some m) := by
  refine ⟨⟨rfl, rfl⟩, ⟨rfl, rfl⟩, ?_, ⟨rfl, rfl⟩⟩
  cases b <;> exact ⟨rfl, rfl⟩

/-! ## Claim C7 -/

theorem transCmp_optionInt :
    Batteries.TransCmp (compare : Option Int → Option Int → Ordering) := by
  refine { symm := ?_, le_trans := ?_ }
  · intro x y
    cases x with
    | none => cases y <;> rfl
    | some a =>
      cases y with
      | none => rfl
      | some b =>
        show (compare a b).swap = compare b a
        exact Batteries.OrientedCmp.symm a b
  · intro x y z h1 h2
    cases x with
    | none => cases z <;> simp [compare, Ord.compare]
    | some a =>
      cases y with
      | none => exact absurd rfl h1
      | some b =>
        cases z with
        | none => exact absurd rfl h2
        | some c =>
          have h1i : compare a b ≠ Ordering.gt := h1
          have h2i : compare b c ≠ Ordering.gt := h2
          show compare a c ≠ Ordering.gt
          exact Batteries.TransCmp.le_trans h1i h2i

theorem transCmp_cmpBsonId : Batteries.TransCmp cmpBsonId := by
  refine { symm := ?_, le_trans := ?_ }
  · intro x y
    cases x with
    | str a =>
      cases y with
      | oid b => rfl
      | str b =>
        show (compare a b).swap = compare b a
        exact Batteries.OrientedCmp.symm a b
    | oid a =>
      cases y with
      | str b => rfl
      | oid b =>
        show (compare a b).swap = compare b a
        exact Batteries.OrientedCmp.symm a b
  · intro x y z h1 h2
    cases x with
    | str a =>
      cases z with
      | oid c => simp [cmpBsonId]
      | str c =>
        cases y with
        | oid b => exact absurd rfl h2
        | str b =>
          have h1i : compare a b ≠ Ordering.gt := h1
          have h2i : compare b c ≠ Ordering.gt := h2
          show compare a c ≠ Ordering.gt
          exact Batteries.TransCmp.le_trans h1i h2i
    | oid a =>
      cases y with
      | str b => exact absurd rfl h1
      | oid b =>
        cases z with
        | str c => exact absurd rfl h2
        | oid c =>
          have h1i : compare a b ≠ Ordering.gt := h1
          have h2i : compare b c ≠ Ordering.gt := h2
          show compare a c ≠ Ordering.gt
          exact Batteries.TransCmp.le_trans h1i h2i

theorem transCmp_parcelCmp : Batteries.TransCmp parcelCmp := by
  haveI h1 : Batteries.TransOrd (Option Int) := transCmp_optionInt
  haveI h2 : Batteries.TransOrd BsonId := transCmp_cmpBsonId
  unfold parcelCmp
  infer_instance

theorem parcelLE_total (a b : Parcel) : parcelLE a b ∨ parcelLE b a := by
  haveI := transCmp_parcelCmp
  by_cases h : parcelCmp a b = Ordering.gt
  · right
    unfold parcelLE
    rw [Batteries.OrientedCmp.cmp_eq_gt.mp h]
    decide
  · exact Or.inl h

theorem parcelLE_trans (a b c : Parcel) (h1 : parcelLE a b) (h2 : parcelLE b c) :
    parcelLE a c := by
  haveI := transCmp_parcelCmp
  exact Batteries.TransCmp.le_trans h1 h2

/-- C7: the listing order is the single compound multi-key sort — the output
is a permutation of the store that is pairwise ordered by the lexicographic
four-key descending comparator — and this differs observably from the
per-record first-non-null fallback reading: on the two-record store where
one record has only `date` and the other only `createdAt`, the compound
sort puts the `createdAt` record first while the fallback reading orders
them the other way. -/
theorem c7_spec (l : List Parcel) :
    List.Sorted parcelLE (sortParcels l) ∧
    (sortParcels l).Perm l ∧
    sortParcels [dateOnlyParcel, createdOnlyParcel] =
      [createdOnlyParcel, dateOnlyParcel] ∧
    sortFallback [dateOnlyParcel, createdOnlyParcel] =
      [dateOnlyParcel, createdOnlyParcel] := by
  haveI : IsTotal Parcel parcelLE := ⟨parcelLE_total⟩
  haveI : IsTrans Parcel parcelLE := ⟨parcelLE_trans⟩
  exact ⟨List.sorted_insertionSort parcelLE l,
    List.perm_insertionSort parcelLE l, by decide, by decide⟩

end ZapShift
